import Mathlib

/-!
Verification development for the mws-lead-backup CRM repository.

The repository is a TypeScript front end over a hosted relational backend.
The logic verified here is translated from:
  * `src/pages/MwsRevenuePage.tsx` — the MWS revenue calculator
    (`revenueData`), the payment modal (`PaymentModal.handleSave`) and the
    payment-save handler (`handleSavePayment`);
  * `src/unnamed/part_000` — the `ApiService` data-access class
    (`unpackMwsSettings`, `getClients`, `getClientByUserId`, `updateClient`,
    `addLead`, `getSentNotifications`, `updateSentNotification`,
    `deleteSentNotification`, `sendQuoteByWebhook`).

Modelling conventions:
  * JavaScript numbers holding money/percentages are modelled as `ℚ`.
  * `Date` values are modelled as integer timestamps (`Int` for lead/spend
    dates, `Nat` milliseconds since the epoch for notification rows, where
    the code derives a UTC minute key).
  * `undefined`/`null`/absent fields are modelled as `Option`.
  * Backend (supabase) calls are modelled by passing their responses as
    explicit arguments: an `Except String α` for a query that can report an
    error, an `Option` for a `.single()` fetch that can come back empty.
-/

namespace MwsLead

/-- A lead as consumed by the revenue calculator in `MwsRevenuePage.tsx`:
`status`, optional monetary `value`, creation date `created_at`, and the
optional explicit attribution date `data._revenue_attribution_date`
(a date string in the source, modelled as a parsed timestamp; `none` covers
both an absent and an empty-string field, which are falsy in
`l.data._revenue_attribution_date || l.created_at`). -/
structure Lead where
  status : String
  value : Option ℚ
  created_at : Int
  revenue_attribution_date : Option Int
  deriving Repr, DecidableEq

/-- An ad-spend row: `amount` and `date` (from table `ad_spends`). -/
structure AdSpend where
  amount : ℚ
  date : Int
  deriving Repr, DecidableEq

/-- A service entry as stored inside a client's `services` JSON array.
The sentinel entry with `id = "mws_settings"` additionally carries the two
commission parameters. `fields` is the (optional) list of form-field
entries; only their ids matter to the logic verified here. -/
structure SvcField where
  id : String
  deriving Repr, DecidableEq

structure SvcEntry where
  id : String
  name : String
  mws_fixed_fee : Option ℚ := none
  mws_profit_percentage : Option ℚ := none
  fields : Option (List SvcField) := none
  deriving Repr, DecidableEq

/-- The raw `services` column value of a `clients` row, as discriminated by
`unpackMwsSettings` / `updateClient`: the code first checks
`typeof rawServices === 'string'` (then `JSON.parse`, with a catch), and
then `Array.isArray`.  List elements are `Option SvcEntry` because a JSON
array may contain `null` entries (the code guards with `s && ...`). -/
inductive RawServices where
  /-- SQL `NULL` / absent column (JS `null`/`undefined`). -/
  | null
  /-- A string that parses as a JSON array. -/
  | strArr (entries : List (Option SvcEntry))
  /-- A string that parses, but to a non-array value. -/
  | strNonArray
  /-- A string on which `JSON.parse` throws. -/
  | strInvalid
  /-- An already-decoded JSON array. -/
  | arr (entries : List (Option SvcEntry))
  /-- Any other non-string, non-array value. -/
  | nonArray
  deriving Repr, DecidableEq

/-- The normalisation shared by `unpackMwsSettings` and `updateClient`:
parse a string value (`[]` on a parse failure), then `Array.isArray`
(`[]` on a non-array). -/
def normServices : RawServices → List (Option SvcEntry)
  | .strArr l => l
  | .arr l => l
  | _ => []

/-- A row of the `clients` table as returned by the backend.  The table has
no top-level commission columns: those live only inside `services` under
the `mws_settings` sentinel. -/
structure ClientRow where
  id : String
  user_id : String
  name : String
  services : RawServices
  quote_webhook_url : Option String := none
  deriving Repr, DecidableEq

/-- A client as exposed to the application: unpacked commission settings,
a plain visible services list, and the aggregated leads / ad spends. -/
structure Client where
  id : String
  user_id : String
  name : String
  services : List SvcEntry
  mws_fixed_fee : Option ℚ
  mws_profit_percentage : Option ℚ
  quote_webhook_url : Option String
  leads : List Lead
  adSpends : List AdSpend
  deriving Repr, DecidableEq

/-- `ApiService.unpackMwsSettings` (src/unnamed/part_000, lines 15–43):
normalise the raw `services` value, pull the commission parameters out of
the first `mws_settings` sentinel entry (if any), and expose the remaining
entries (dropping `null`s, which the filter `s && s.id !== 'mws_settings'`
also removes) as the visible services list.  Call sites spread in `leads`
and `adSpends`; this translation initialises them to `[]` as
`updateClient`'s call site does. -/
def unpackMwsSettings (c : ClientRow) : Client :=
  let servicesArray := normServices c.services
  let nonNull := servicesArray.filterMap id
  let mwsSettings := nonNull.find? (fun s => s.id = "mws_settings")
  { id := c.id
    user_id := c.user_id
    name := c.name
    services := nonNull.filter (fun s => s.id ≠ "mws_settings")
    mws_fixed_fee := (mwsSettings.map SvcEntry.mws_fixed_fee).getD none
    mws_profit_percentage :=
      (mwsSettings.map SvcEntry.mws_profit_percentage).getD none
    quote_webhook_url := c.quote_webhook_url
    leads := []
    adSpends := [] }

/-! ## Revenue calculator (`MwsRevenuePage.tsx`, `revenueData`, lines 123–156) -/

/-- The page's `dateRange`: optional inclusive start and end timestamps.
(`stop` stands for the source's `end`, a reserved word in Lean.) -/
structure DateRange where
  start : Option Int
  stop : Option Int
  deriving Repr, DecidableEq

/-- `isAfter && isBefore` from the lead/spend filters: a missing bound
always passes (`!dateRange.start || date >= dateRange.start`). -/
def inWindow (r : DateRange) (t : Int) : Bool :=
  (match r.start with | none => true | some s => decide (s ≤ t)) &&
  (match r.stop with | none => true | some e => decide (t ≤ e))

/-- The effective attribution date of a lead:
`l.data._revenue_attribution_date || l.created_at`. -/
def Lead.attrDate (l : Lead) : Int :=
  l.revenue_attribution_date.getD l.created_at

/-- The record returned by the `revenueData` memo. -/
structure RevenueData where
  clientRevenue : ℚ
  totalAdSpend : ℚ
  clientProfit : ℚ
  mwsFixed : ℚ
  mwsPercentage : ℚ
  mwsProfitShare : ℚ
  mwsRevenue : ℚ
  deriving Repr, DecidableEq

/-- `revenueData` (MwsRevenuePage.tsx lines 123–156): filter leads and ad
spends to the window (only when at least one bound is set, matching the
`if (dateRange.start || dateRange.end)` guards), sum the values of the
`'Vinto'` (Won) leads and the spend amounts, and compute
`fixedFee + (profit > 0 ? profit * percentage / 100 : 0)`.
`l.value || 0` and `client.mws_fixed_fee || 0` are `Option.getD _ 0`
(a stored `0` is falsy in JS but `0 || 0 = 0`). -/
def revenueData (client : Client) (dateRange : DateRange) : RevenueData :=
  let leads :=
    if dateRange.start.isSome || dateRange.stop.isSome then
      client.leads.filter (fun l => inWindow dateRange l.attrDate)
    else client.leads
  let spends :=
    if dateRange.start.isSome || dateRange.stop.isSome then
      client.adSpends.filter (fun s => inWindow dateRange s.date)
    else client.adSpends
  let wonLeads := leads.filter (fun l => l.status = "Vinto")
  let clientRevenue := wonLeads.foldl (fun sum l => sum + l.value.getD 0) 0
  let totalAdSpend := spends.foldl (fun sum s => sum + s.amount) 0
  let clientProfit := clientRevenue - totalAdSpend
  let mwsFixed := client.mws_fixed_fee.getD 0
  let mwsPercentage := client.mws_profit_percentage.getD 0
  let mwsProfitShare :=
    if clientProfit > 0 then clientProfit * mwsPercentage / 100 else 0
  { clientRevenue := clientRevenue
    totalAdSpend := totalAdSpend
    clientProfit := clientProfit
    mwsFixed := mwsFixed
    mwsPercentage := mwsPercentage
    mwsProfitShare := mwsProfitShare
    mwsRevenue := mwsFixed + mwsProfitShare }

/-! ## Payment reconciliation (`MwsRevenuePage.tsx`) -/

/-- `PaymentModal.handleSave` (lines 47–64).  Arguments: the modal's
`totalDue` and `existingPaidAmount` props, the parsed entry of the amount
field (`none` models `parseFloat` returning `NaN`), and the
`isPaidInFull` checkbox.  Returns `none` when validation fails (an error
message is shown and `onSave` is not called), otherwise
`some (totalPaidAmount, isTotal)` — the two fields of the object passed to
`onSave`.  `existingPaidAmount || 0` coincides with the plain value since
the prop is a number defaulted to `0` at the call site. -/
def handleSave (totalDue existingPaidAmount : ℚ) (amount : Option ℚ)
    (isPaidInFull : Bool) : Option (ℚ × Bool) :=
  let remainingDue := max 0 (totalDue - existingPaidAmount)
  match amount with
  | none => none
  | some paymentAmount =>
    if paymentAmount < 0 then none
    else if !isPaidInFull && paymentAmount > remainingDue then none
    else
      let totalPaidAmount :=
        existingPaidAmount + (if isPaidInFull then remainingDue else paymentAmount)
      some (totalPaidAmount, isPaidInFull || decide (totalPaidAmount ≥ totalDue))

/-- The status written by `handleSavePayment` (lines 327–345):
`isTotal ? 'paid' : (amount > 0 ? 'partially_paid' : 'unpaid')`. -/
def paymentStatus (amount : ℚ) (isTotal : Bool) : String :=
  if isTotal then "paid"
  else if amount > 0 then "partially_paid"
  else "unpaid"

/-- Modelled from the spec: the paid amount C2 claims —
existing amount plus the remaining due when paid-in-full, otherwise plus
the entered amount clamped to not exceed the remaining due. -/
def claimedNewPaidAmount (totalDue existingPaidAmount enteredAmount : ℚ)
    (isPaidInFull : Bool) : ℚ :=
  let remainingDue := max 0 (totalDue - existingPaidAmount)
  existingPaidAmount +
    (if isPaidInFull then remainingDue else min enteredAmount remainingDue)

/-! ## Helper lemmas about the revenue sums -/

/-- The `reduce((sum, x) => sum + f x, 0)` pattern is the sum of the map. -/
theorem foldl_add_eq_sum {α : Type} (f : α → ℚ) (l : List α) (init : ℚ) :
    l.foldl (fun sum x => sum + f x) init = init + (l.map f).sum := by
  induction l generalizing init with
  | nil => simp
  | cons x xs ih => simp [List.foldl_cons, ih, add_assoc]

/-- `revenueData` with the window-filter guards removed: since a window
with no bounds accepts everything, filtering unconditionally is the same. -/
theorem revenueData_eq_filtered (client : Client) (r : DateRange) :
    revenueData client r =
      revenueData
        { client with
          leads := client.leads.filter (fun l => inWindow r l.attrDate)
          adSpends := client.adSpends.filter (fun s => inWindow r s.date) }
        { start := none, stop := none } := by
  unfold revenueData
  rcases r with ⟨s, e⟩
  cases s <;> cases e <;>
    simp [inWindow, List.filter_eq_self]

/-! ## Claim C1 -/

/-- The client of the spec's worked example: `fixedFee = 100`,
`profitPercentage = 20`, one Won (`'Vinto'`) lead of value `1000` in the
window and one ad spend of `200` in the window. -/
def exClientC1 : Client :=
  { id := "c1", user_id := "u1", name := "Acme", services := [],
    mws_fixed_fee := some 100, mws_profit_percentage := some 20,
    quote_webhook_url := none,
    leads := [{ status := "Vinto", value := some 1000, created_at := 5,
                revenue_attribution_date := none }],
    adSpends := [{ amount := 200, date := 7 }] }

/-- C1: for one client and an inclusive window `[start, end]`, the computed
MWS revenue equals `fixedFee + (profit > 0 ? profit * percentage / 100 : 0)`
where `profit` is the sum of the values of Won (`'Vinto'`) leads whose
attribution date (the explicit `_revenue_attribution_date` if present, else
the creation date) lies in the window, minus the sum of the ad-spend
amounts whose date lies in the window; and on the spec's example
(`fixedFee = 100`, `percentage = 20`, one Won lead of value `1000`, one ad
spend of `200`) the commission is `260`. -/
theorem C1_mws_revenue_formula :
    (∀ (c : Client) (s e : Int),
      (revenueData c ⟨some s, some e⟩).mwsRevenue =
        c.mws_fixed_fee.getD 0 +
          (let wonRevenue :=
            ((c.leads.filter (fun l =>
                decide (l.status = "Vinto") && decide (s ≤ l.attrDate) &&
                  decide (l.attrDate ≤ e))).map (fun l => l.value.getD 0)).sum
           let adSpendSum :=
            ((c.adSpends.filter (fun a =>
                decide (s ≤ a.date) && decide (a.date ≤ e))).map AdSpend.amount).sum
           let profit := wonRevenue - adSpendSum
           if 0 < profit then profit * (c.mws_profit_percentage.getD 0) / 100 else 0)) ∧
    (revenueData exClientC1 ⟨some 0, some 10⟩).mwsRevenue = 260 := by
  constructor
  · intro c s e
    simp only [revenueData, inWindow, Option.isSome_some, Bool.true_or, if_true,
      List.filter_filter, foldl_add_eq_sum, zero_add]
    congr 1
    rw [List.filter_congr]
    intro l _
    simp only [Bool.and_comm, Bool.and_assoc]
  · norm_num [revenueData, exClientC1, inWindow, Lead.attrDate]

/-! ## Claim C2 -/

/-- Helper: the status written by `handleSavePayment` when the `isTotal`
flag is `totalDue ≤ paid`. -/
theorem paymentStatus_decide (td p : ℚ) :
    paymentStatus p (decide (td ≤ p)) =
      if td ≤ p then "paid" else if 0 < p then "partially_paid" else "unpaid" := by
  simp only [paymentStatus]
  by_cases h : td ≤ p <;> simp [h]

/-- C2 counterexample: the claim says an entered amount is *clamped* to the
remaining due (so `totalDue = 260`, `existingPaid = 0`, entered `300`
not-in-full would yield a paid amount of `260`), but
`PaymentModal.handleSave` rejects the overpayment with a validation error
and produces no payment at all. -/
theorem C2_clamping_counterexample :
    handleSave 260 0 (some 300) false = none ∧
    claimedNewPaidAmount 260 0 300 false = 260 := by
  constructor
  · norm_num [handleSave]
  · norm_num [claimedNewPaidAmount]

/-- C2 (amended): whenever `handleSave` accepts a payment, the new paid
amount is the existing paid amount plus the remaining due when marked
paid-in-full, otherwise plus the entered amount — which the modal has
*rejected with an error* (rather than clamped) whenever it exceeds the
remaining due; the resulting status is `paid` iff the new paid amount is at
least the total due, else `partially_paid` iff it is positive, else
`unpaid`.  In particular `totalDue = 260`, `existingPaid = 0`, entered
`100` not-in-full yields `(100, partially_paid)`, and paid-in-full yields
`(260, paid)`. -/
theorem C2_payment_reconciliation :
    (∀ (totalDue existingPaid a : ℚ) (full : Bool) (p : ℚ) (t : Bool),
      handleSave totalDue existingPaid (some a) full = some (p, t) →
        (p = existingPaid + (if full then max 0 (totalDue - existingPaid) else a)) ∧
        (full = false → a ≤ max 0 (totalDue - existingPaid)) ∧
        (t = decide (totalDue ≤ p)) ∧
        (paymentStatus p t =
          if totalDue ≤ p then "paid"
          else if 0 < p then "partially_paid" else "unpaid")) ∧
    (handleSave 260 0 (some 100) false = some (100, false) ∧
      paymentStatus 100 false = "partially_paid") ∧
    (handleSave 260 0 (some 260) true = some (260, true) ∧
      paymentStatus 260 true = "paid") := by
  refine ⟨?_, ⟨?_, ?_⟩, ⟨?_, ?_⟩⟩
  · intro td ep a full p t h
    simp only [handleSave] at h
    split at h
    · exact absurd h (by simp)
    split at h
    · exact absurd h (by simp)
    rename_i hneg hclamp
    rw [Option.some_inj, Prod.mk.injEq] at h
    obtain ⟨hp, ht⟩ := h
    subst hp
    subst ht
    have hkey : ep + max 0 (td - ep) = max ep td := by
      rcases le_total ep td with hle | hle
      · rw [max_eq_right (by linarith : (0:ℚ) ≤ td - ep), max_eq_right hle]; ring
      · rw [max_eq_left (by linarith : td - ep ≤ 0), max_eq_left hle]; ring
    have hge : td ≤ ep + max 0 (td - ep) := by
      rw [hkey]; exact le_max_right ep td
    cases full with
    | false =>
      have h3 : (false || decide (ep + (if (false : Bool) = true then max 0 (td - ep) else a) ≥ td))
          = decide (td ≤ ep + (if (false : Bool) = true then max 0 (td - ep) else a)) := by
        simp [ge_iff_le]
      refine ⟨rfl, ?_, h3, ?_⟩
      · intro _
        simp only [Bool.not_false, Bool.true_and, decide_eq_true_eq, not_lt] at hclamp
        exact hclamp
      · rw [h3, paymentStatus_decide]
    | true =>
      have h3 : (true || decide (ep + (if (true : Bool) = true then max 0 (td - ep) else a) ≥ td))
          = decide (td ≤ ep + (if (true : Bool) = true then max 0 (td - ep) else a)) := by
        simp only [Bool.true_or, if_pos rfl]
        exact (decide_eq_true hge).symm
      refine ⟨rfl, fun hc => absurd hc (by simp), h3, ?_⟩
      rw [h3, paymentStatus_decide]
  · norm_num [handleSave]
  · norm_num [paymentStatus]
  · norm_num [handleSave]
  · simp [paymentStatus]

/-- Witness for C2: the accepted-payment clause applied at the concrete
input `totalDue = 0`, `existingPaid = 0`, entered `0`, not paid-in-full. -/
theorem C2_payment_reconciliation_witness :
    ((0 : ℚ) = 0 + (if (false : Bool) then max 0 ((0 : ℚ) - 0) else 0)) ∧
    ((false : Bool) = false → (0 : ℚ) ≤ max 0 ((0 : ℚ) - 0)) ∧
    ((true : Bool) = decide ((0 : ℚ) ≤ 0)) ∧
    (paymentStatus 0 true =
      if (0 : ℚ) ≤ 0 then "paid"
      else if 0 < (0 : ℚ) then "partially_paid" else "unpaid") :=
  C2_payment_reconciliation.1 0 0 0 false 0 true (by simp [handleSave])

/-! ## Claim C8 -/

/-- The window sum of Won-lead values: what `revenueData` computes as
`clientRevenue`, written as a single filtered sum. -/
def wonRevenueIn (c : Client) (r : DateRange) : ℚ :=
  ((c.leads.filter (fun l => decide (l.status = "Vinto") && inWindow r l.attrDate)).map
    (fun l => l.value.getD 0)).sum

/-- The window sum of ad-spend amounts: `revenueData`'s `totalAdSpend`. -/
def adSpendIn (c : Client) (r : DateRange) : ℚ :=
  ((c.adSpends.filter (fun s => inWindow r s.date)).map AdSpend.amount).sum

/-- Every field of `revenueData` is determined by the two window sums. -/
theorem revenueData_eq_sums (c : Client) (r : DateRange) :
    revenueData c r =
      { clientRevenue := wonRevenueIn c r
        totalAdSpend := adSpendIn c r
        clientProfit := wonRevenueIn c r - adSpendIn c r
        mwsFixed := c.mws_fixed_fee.getD 0
        mwsPercentage := c.mws_profit_percentage.getD 0
        mwsProfitShare :=
          if 0 < wonRevenueIn c r - adSpendIn c r then
            (wonRevenueIn c r - adSpendIn c r) * (c.mws_profit_percentage.getD 0) / 100
          else 0
        mwsRevenue :=
          c.mws_fixed_fee.getD 0 +
            if 0 < wonRevenueIn c r - adSpendIn c r then
              (wonRevenueIn c r - adSpendIn c r) * (c.mws_profit_percentage.getD 0) / 100
            else 0 } := by
  rcases r with ⟨s, e⟩
  cases s <;> cases e <;>
    simp [revenueData, wonRevenueIn, adSpendIn, inWindow, foldl_add_eq_sum,
      List.filter_filter, List.filter_eq_self]

/-- Summing a mapped filter over two complementary disjoint predicates
equals the sum over their union predicate. -/
theorem sum_filter_split {α : Type} (f : α → ℚ) (p q pr : α → Bool) (l : List α)
    (hcov : ∀ x, pr x = (p x || q x)) (hdisj : ∀ x, ¬(p x = true ∧ q x = true)) :
    ((l.filter p).map f).sum + ((l.filter q).map f).sum = ((l.filter pr).map f).sum := by
  induction l with
  | nil => simp
  | cons x xs ih =>
    have hc := hcov x
    have hd := hdisj x
    cases hp : p x <;> cases hq : q x
    · rw [List.filter_cons_of_neg (by simp [hp]), List.filter_cons_of_neg (by simp [hq]),
        List.filter_cons_of_neg (by simp [hc, hp, hq])]
      exact ih
    · rw [List.filter_cons_of_neg (by simp [hp]), List.filter_cons_of_pos (by simp [hq]),
        List.filter_cons_of_pos (by simp [hc, hp, hq])]
      simp only [List.map_cons, List.sum_cons]
      rw [← ih]; ring
    · rw [List.filter_cons_of_pos (by simp [hp]), List.filter_cons_of_neg (by simp [hq]),
        List.filter_cons_of_pos (by simp [hc, hp, hq])]
      simp only [List.map_cons, List.sum_cons]
      rw [← ih]; ring
    · exact absurd ⟨hp, hq⟩ hd

/-- `r1, r2` split the window `r`: every timestamp in `r` falls in exactly
one of the two sub-windows. -/
def isPartitionOfWindow (r r1 r2 : DateRange) : Prop :=
  (∀ t, inWindow r t = (inWindow r1 t || inWindow r2 t)) ∧
  (∀ t, ¬(inWindow r1 t = true ∧ inWindow r2 t = true))

/-- The client used to refute the additivity half of C8: no fixed fee (the
"linear" reading most favourable to the claim), percentage `20`, one Won
lead of value `1000` on day `3`, one ad spend of `200` on day `7`. -/
def exClientC8 : Client :=
  { id := "c8", user_id := "u8", name := "Acme", services := [],
    mws_fixed_fee := none, mws_profit_percentage := some 20,
    quote_webhook_url := none,
    leads := [{ status := "Vinto", value := some 1000, created_at := 3,
                revenue_attribution_date := none }],
    adSpends := [{ amount := 200, date := 7 }] }

/-- C8 counterexample: splitting `[0, 10]` into the disjoint sub-windows
`[0, 5]` and `[6, 10]`, the sub-window commissions (`200` and `0`, as the
losing sub-window's profit is clamped at zero) do not sum to the union
commission (`160`) — even with fixed fee absent, the most linear possible
parameters. -/
theorem C8_additivity_counterexample :
    isPartitionOfWindow ⟨some 0, some 10⟩ ⟨some 0, some 5⟩ ⟨some 6, some 10⟩ ∧
    (revenueData exClientC8 ⟨some 0, some 5⟩).mwsRevenue +
        (revenueData exClientC8 ⟨some 6, some 10⟩).mwsRevenue ≠
      (revenueData exClientC8 ⟨some 0, some 10⟩).mwsRevenue := by
  refine ⟨⟨?_, ?_⟩, ?_⟩
  · intro t
    simp only [inWindow, Bool.and_eq_true, decide_eq_true_eq, Bool.or_eq_true,
      ← Bool.decide_and, ← Bool.decide_or, decide_eq_decide]
    omega
  · intro t
    simp only [inWindow, Bool.and_eq_true, decide_eq_true_eq, not_and]
    omega
  · norm_num [revenueData, exClientC8, inWindow, Lead.attrDate]

/-- Partition of a window splits both window sums. -/
theorem windowSums_additive (c : Client) (r r1 r2 : DateRange)
    (h : isPartitionOfWindow r r1 r2) :
    wonRevenueIn c r1 + wonRevenueIn c r2 = wonRevenueIn c r ∧
    adSpendIn c r1 + adSpendIn c r2 = adSpendIn c r := by
  obtain ⟨hcov, hdisj⟩ := h
  constructor
  · unfold wonRevenueIn
    refine sum_filter_split _ _ _ _ _ ?_ ?_
    · intro l
      rw [hcov l.attrDate, Bool.and_or_distrib_left]
    · intro l hpq
      refine hdisj l.attrDate ⟨?_, ?_⟩
      · exact ((Bool.and_eq_true _ _).mp hpq.1).2
      · exact ((Bool.and_eq_true _ _).mp hpq.2).2
  · unfold adSpendIn
    exact sum_filter_split _ _ _ _ _ (fun s => hcov s.date) (fun s => hdisj s.date)

/-- C8 (amended): `revenueData` is order-independent — permuting the leads
or the ad spends changes no computed figure — and the window sums, hence
`clientRevenue`, `totalAdSpend` and `clientProfit`, are additive over any
partition of a window into two disjoint sub-windows.  Commission
(`mwsRevenue`) itself is **not** additive (see the counterexample): the
fixed fee is charged once per computation and a negative sub-window profit
is clamped to zero; additivity holds once the fixed fee is zero and both
sub-window profits are nonnegative. -/
theorem C8_order_independence_and_additivity :
    (∀ (c : Client) (r : DateRange) (leads2 : List Lead) (spends2 : List AdSpend),
      c.leads.Perm leads2 → c.adSpends.Perm spends2 →
      revenueData c r = revenueData { c with leads := leads2, adSpends := spends2 } r) ∧
    (∀ (c : Client) (r r1 r2 : DateRange), isPartitionOfWindow r r1 r2 →
      ((revenueData c r1).clientRevenue + (revenueData c r2).clientRevenue =
        (revenueData c r).clientRevenue) ∧
      ((revenueData c r1).totalAdSpend + (revenueData c r2).totalAdSpend =
        (revenueData c r).totalAdSpend) ∧
      ((revenueData c r1).clientProfit + (revenueData c r2).clientProfit =
        (revenueData c r).clientProfit) ∧
      (c.mws_fixed_fee.getD 0 = 0 →
        0 ≤ (revenueData c r1).clientProfit →
        0 ≤ (revenueData c r2).clientProfit →
        (revenueData c r1).mwsRevenue + (revenueData c r2).mwsRevenue =
          (revenueData c r).mwsRevenue)) := by
  constructor
  · intro c r leads2 spends2 hl hs
    have h1 : wonRevenueIn c r = wonRevenueIn { c with leads := leads2, adSpends := spends2 } r :=
      List.Perm.sum_eq (List.Perm.map _ (List.Perm.filter _ hl))
    have h2 : adSpendIn c r = adSpendIn { c with leads := leads2, adSpends := spends2 } r :=
      List.Perm.sum_eq (List.Perm.map _ (List.Perm.filter _ hs))
    rw [revenueData_eq_sums, revenueData_eq_sums, h1, h2]
  · intro c r r1 r2 h
    obtain ⟨hw, ha⟩ := windowSums_additive c r r1 r2 h
    simp only [revenueData_eq_sums]
    refine ⟨hw, ha, by linarith, ?_⟩
    intro hfee hp1 hp2
    rw [hfee]
    set p1 := wonRevenueIn c r1 - adSpendIn c r1 with hp1def
    set p2 := wonRevenueIn c r2 - adSpendIn c r2 with hp2def
    have hpu : wonRevenueIn c r - adSpendIn c r = p1 + p2 := by
      rw [hp1def, hp2def]; linarith
    rw [hpu]
    simp only [zero_add]
    by_cases h1 : 0 < p1 <;> by_cases h2 : 0 < p2
    · rw [if_pos h1, if_pos h2, if_pos (by linarith)]; ring
    · have : p2 = 0 := le_antisymm (not_lt.mp h2) hp2
      rw [if_pos h1, if_neg h2, this, add_zero, if_pos (by linarith), add_zero]
    · have : p1 = 0 := le_antisymm (not_lt.mp h1) hp1
      rw [if_neg h1, if_pos h2, this, zero_add, if_pos (by linarith), zero_add]
    · have e1 : p1 = 0 := le_antisymm (not_lt.mp h1) hp1
      have e2 : p2 = 0 := le_antisymm (not_lt.mp h2) hp2
      rw [if_neg h1, if_neg h2, e1, e2, add_zero, if_neg (by norm_num)]

/-! ## Client read/update operations (`ApiService`) -/

/-- JS `String.prototype.startsWith`, computed on the character lists. -/
def strStartsWith (s pre : String) : Bool := pre.data.isPrefixOf s.data

/-- A fresh id for a service entry.  The source builds
`service_${Date.now()}_${Math.random()}`; the nondeterministic suffix is
modelled by a position-indexed counter, keeping the `service_` prefix. -/
def freshServiceId (n : Nat) : String := "service_" ++ toString n

/-- A fresh id for a field entry (`field_${Date.now()}_${Math.random()}`). -/
def freshFieldId (n : Nat) : String := "field_" ++ toString n

/-- The id-reassignment of `updateClient`, per field:
`(f.id && !f.id.startsWith('new_')) ? f.id : fresh`. -/
def reassignFieldId (j : Nat) (f : SvcField) : SvcField :=
  if f.id ≠ "" ∧ strStartsWith f.id "new_" = false then f
  else { f with id := freshFieldId j }

def reassignFields : Nat → List SvcField → List SvcField
  | _, [] => []
  | j, f :: rest => reassignFieldId j f :: reassignFields (j + 1) rest

/-- The id-reassignment of `updateClient`, per service:
`(s.id && !s.id.startsWith('new_')) ? s.id
 : (s.id === 'mws_settings' ? 'mws_settings' : fresh)`,
with `fields` mapped the same way when present. -/
def reassignService (i : Nat) (s : SvcEntry) : SvcEntry :=
  { s with
    id :=
      if s.id ≠ "" ∧ strStartsWith s.id "new_" = false then s.id
      else if s.id = "mws_settings" then "mws_settings"
      else freshServiceId i
    fields := s.fields.map (reassignFields 0) }

def reassignIds : Nat → List SvcEntry → List SvcEntry
  | _, [] => []
  | i, s :: rest => reassignService i s :: reassignIds (i + 1) rest

/-- The sentinel created when the stored services have none:
`{ id: 'mws_settings', name: '_mws_settings' }`. -/
def defaultMwsSettings : SvcEntry := { id := "mws_settings", name := "_mws_settings" }

/-- The `updates` argument of `ApiService.updateClient`
(`Partial<Pick<Client, 'name' | 'services' | 'mws_fixed_fee' |
'mws_profit_percentage' | 'quote_webhook_url'>>`): `none` = key absent. -/
structure ClientUpdates where
  name : Option String := none
  services : Option (List SvcEntry) := none
  mws_fixed_fee : Option ℚ := none
  mws_profit_percentage : Option ℚ := none
  quote_webhook_url : Option String := none
  deriving Repr, DecidableEq

/-- The `services` value `updateClient` sends to the backend: `none` when
neither commission parameter nor a services list was provided (the column
is left untouched), otherwise the preserved/updated sentinel appended to
the user services, with ids reassigned. -/
def updatedServices (stored : RawServices) (u : ClientUpdates) : Option (List SvcEntry) :=
  if u.mws_fixed_fee.isSome || u.mws_profit_percentage.isSome || u.services.isSome then
    let currentServices := normServices stored
    let userServices0 := (currentServices.filterMap id).filter (fun s => s.id ≠ "mws_settings")
    let mws0 := ((currentServices.filterMap id).find? (fun s => s.id = "mws_settings")).getD
      defaultMwsSettings
    let userServices := match u.services with
      | some us => us
      | none => userServices0
    let mws1 := match u.mws_fixed_fee with
      | some f => { mws0 with mws_fixed_fee := some f }
      | none => mws0
    let mws2 := match u.mws_profit_percentage with
      | some p => { mws1 with mws_profit_percentage := some p }
      | none => mws1
    some (reassignIds 0 (userServices ++ [mws2]))
  else none

/-- `ApiService.updateClient` (src/unnamed/part_000, lines 178–243): write
the computed updates to the row and unpack the returned row (the source
additionally spreads in `leads: [], adSpends: []`, as `unpackMwsSettings`
does here). -/
def updateClient (row : ClientRow) (u : ClientUpdates) : Client :=
  let newServices := match updatedServices row.services u with
    | some l => RawServices.arr (l.map some)
    | none => row.services
  unpackMwsSettings
    { row with
      services := newServices
      name := u.name.getD row.name
      quote_webhook_url := match u.quote_webhook_url with
        | some url => some url
        | none => row.quote_webhook_url }

/-- `ApiService.getClients` (lines 48–69): fail on a query error, else
unpack each row and attach its (possibly absent) leads and ad spends. -/
def getClients (resp : Except String (List ClientRow))
    (leadsOf : String → Option (List Lead))
    (spendsOf : String → Option (List AdSpend)) : Except String (List Client) :=
  match resp with
  | .error e => .error e
  | .ok rows => .ok (rows.map (fun c =>
      { unpackMwsSettings c with
        leads := (leadsOf c.id).getD []
        adSpends := (spendsOf c.id).getD [] }))

/-- `ApiService.getClientByUserId` (lines 111–146): `null` on a query
error, `null` on no rows, else the first row (duplicates tolerated),
unpacked and aggregated with its leads and ad spends. -/
def getClientByUserId (resp : Except String (List ClientRow))
    (leads : Option (List Lead)) (spends : Option (List AdSpend)) : Option Client :=
  match resp with
  | .error _ => none
  | .ok [] => none
  | .ok (c :: _) =>
      some { unpackMwsSettings c with
             leads := leads.getD [], adSpends := spends.getD [] }

/-! ### Lemmas about the reassignment and the sentinel -/

theorem freshServiceId_ne_sentinel (n : Nat) : freshServiceId n ≠ "mws_settings" := by
  intro h
  have h2 : (freshServiceId n).data = "mws_settings".data := congrArg String.data h
  simp [freshServiceId, String.data_append] at h2

theorem reassignService_id_ne (i : Nat) (s : SvcEntry) (h : s.id ≠ "mws_settings") :
    (reassignService i s).id ≠ "mws_settings" := by
  simp only [reassignService]
  by_cases h1 : s.id ≠ "" ∧ strStartsWith s.id "new_" = false
  · rwa [if_pos h1]
  · rw [if_neg h1, if_neg h]
    exact freshServiceId_ne_sentinel i

theorem reassignService_sentinel (i : Nat) (s : SvcEntry) (h : s.id = "mws_settings") :
    (reassignService i s).id = "mws_settings" ∧
    (reassignService i s).mws_fixed_fee = s.mws_fixed_fee ∧
    (reassignService i s).mws_profit_percentage = s.mws_profit_percentage := by
  refine ⟨?_, rfl, rfl⟩
  simp only [reassignService]
  have h1 : s.id ≠ "" ∧ strStartsWith s.id "new_" = false := by
    rw [h]; exact ⟨by decide, by decide⟩
  rw [if_pos h1]
  exact h

theorem reassignIds_append (i : Nat) (l1 l2 : List SvcEntry) :
    reassignIds i (l1 ++ l2) = reassignIds i l1 ++ reassignIds (i + l1.length) l2 := by
  induction l1 generalizing i with
  | nil => simp [reassignIds]
  | cons x xs ih =>
    simp only [List.cons_append, reassignIds, List.append_eq]
    rw [ih]
    simp only [List.length_cons]
    have hn : i + 1 + xs.length = i + (xs.length + 1) := by omega
    rw [hn]

theorem find?_reassignIds_none (i : Nat) (l : List SvcEntry)
    (h : ∀ s ∈ l, s.id ≠ "mws_settings") :
    (reassignIds i l).find? (fun s => s.id = "mws_settings") = none := by
  induction l generalizing i with
  | nil => rfl
  | cons x xs ih =>
    rw [reassignIds, List.find?_cons_of_neg, ih]
    · intro s hs
      exact h s (List.mem_cons_of_mem _ hs)
    · simp
      exact reassignService_id_ne i x (h x (List.mem_cons_self _ _))

/-- The visible services list of an unpacked client never contains the
commission sentinel: the filter `s && s.id !== 'mws_settings'` removes it. -/
theorem unpack_services_ne_sentinel (row : ClientRow) :
    ∀ s ∈ (unpackMwsSettings row).services, s.id ≠ "mws_settings" := by
  intro s hs
  have := (List.mem_filter.mp hs).2
  simpa using this

/-- Unpacking a row whose stored services are a plain array recovers the
commission parameters from the first sentinel entry. -/
theorem unpack_arr_map_some_fee (row : ClientRow) (l : List SvcEntry) :
    (unpackMwsSettings { row with services := RawServices.arr (l.map some) }).mws_fixed_fee =
      ((l.find? (fun s => s.id = "mws_settings")).map SvcEntry.mws_fixed_fee).getD none ∧
    (unpackMwsSettings { row with services := RawServices.arr (l.map some) }).mws_profit_percentage =
      ((l.find? (fun s => s.id = "mws_settings")).map SvcEntry.mws_profit_percentage).getD none := by
  simp [unpackMwsSettings, normServices, List.filterMap_map]

/-! ## Claim C3 -/

/-- C3: updating a client's commission parameters through `updateClient`
and unpacking the stored row round-trips `mws_fixed_fee` and
`mws_profit_percentage` unchanged; and an update touching only the
services list leaves both commission parameters exactly as an unpack of
the original row reports them.  (The provided services list is assumed not
to smuggle its own `mws_settings` entry — clients expose sentinel-free
lists, per C4.) -/
theorem C3_commission_roundtrip :
    (∀ (row : ClientRow) (u : ClientUpdates) (f p : ℚ),
      u.mws_fixed_fee = some f → u.mws_profit_percentage = some p →
      (∀ us, u.services = some us → ∀ s ∈ us, s.id ≠ "mws_settings") →
      (updateClient row u).mws_fixed_fee = some f ∧
      (updateClient row u).mws_profit_percentage = some p) ∧
    (∀ (row : ClientRow) (us : List SvcEntry),
      (∀ s ∈ us, s.id ≠ "mws_settings") →
      (updateClient row { services := some us }).mws_fixed_fee =
        (unpackMwsSettings row).mws_fixed_fee ∧
      (updateClient row { services := some us }).mws_profit_percentage =
        (unpackMwsSettings row).mws_profit_percentage) := by
  constructor
  · intro row u f p hf hp hus
    set current := (normServices row.services).filterMap id with hcur
    set mws0 := (current.find? (fun s => s.id = "mws_settings")).getD defaultMwsSettings with hmws0
    have hmws0id : mws0.id = "mws_settings" := by
      rw [hmws0]
      cases hfind : current.find? (fun s => s.id = "mws_settings") with
      | none => rfl
      | some e =>
        have := List.find?_some hfind
        simpa using this
    set userServices := (match u.services with
      | some us => us
      | none => current.filter (fun s => s.id ≠ "mws_settings")) with huser
    have huserfree : ∀ s ∈ userServices, s.id ≠ "mws_settings" := by
      rw [huser]
      cases hu : u.services with
      | some us =>
        intro s hs
        exact hus us hu s hs
      | none =>
        intro s hs
        have := List.mem_filter.mp hs
        simpa using this.2
    set mws2 := { mws0 with mws_fixed_fee := some f, mws_profit_percentage := some p } with hmws2
    have hserv : updatedServices row.services u = some (reassignIds 0 (userServices ++ [mws2])) := by
      simp only [updatedServices, hf, hp, Option.isSome_some, Bool.true_or, if_true]
    have hrw : reassignIds 0 (userServices ++ [mws2]) =
        reassignIds 0 userServices ++ [reassignService userServices.length mws2] := by
      rw [reassignIds_append]
      simp [reassignIds]
    have hm2id : mws2.id = "mws_settings" := hmws0id
    have hsent := reassignService_sentinel userServices.length mws2 hm2id
    have hfind : (reassignIds 0 (userServices ++ [mws2])).find? (fun s => s.id = "mws_settings") =
        some (reassignService userServices.length mws2) := by
      rw [hrw, List.find?_append, find?_reassignIds_none 0 userServices huserfree]
      simp [List.find?_cons, hsent.1]
    simp only [updateClient, hserv]
    obtain ⟨h1, h2⟩ := unpack_arr_map_some_fee
      { row with
        name := u.name.getD row.name
        quote_webhook_url := match u.quote_webhook_url with
          | some url => some url
          | none => row.quote_webhook_url }
      (reassignIds 0 (userServices ++ [mws2]))
    constructor
    · rw [h1, hfind]
      simp [hsent.2.1, hmws2]
    · rw [h2, hfind]
      simp [hsent.2.2, hmws2]
  · intro row us hus
    set current := (normServices row.services).filterMap id with hcur
    set mws0 := (current.find? (fun s => s.id = "mws_settings")).getD defaultMwsSettings with hmws0
    have hmws0id : mws0.id = "mws_settings" := by
      rw [hmws0]
      cases hfind : current.find? (fun s => s.id = "mws_settings") with
      | none => rfl
      | some e =>
        have := List.find?_some hfind
        simpa using this
    have hserv : updatedServices row.services { services := some us } =
        some (reassignIds 0 (us ++ [mws0])) := by
      simp only [updatedServices, Option.isSome_some, Bool.or_true, if_true]
    have hrw : reassignIds 0 (us ++ [mws0]) =
        reassignIds 0 us ++ [reassignService us.length mws0] := by
      rw [reassignIds_append]
      simp [reassignIds]
    have hsent := reassignService_sentinel us.length mws0 hmws0id
    have hfind2 : (reassignIds 0 (us ++ [mws0])).find? (fun s => s.id = "mws_settings") =
        some (reassignService us.length mws0) := by
      rw [hrw, List.find?_append, find?_reassignIds_none 0 us hus]
      simp [List.find?_cons, hsent.1]
    simp only [updateClient, hserv]
    obtain ⟨h1, h2⟩ := unpack_arr_map_some_fee
      { row with
        name := (none : Option String).getD row.name
        quote_webhook_url := row.quote_webhook_url }
      (reassignIds 0 (us ++ [mws0]))
    have hunfee : (unpackMwsSettings row).mws_fixed_fee =
        ((current.find? (fun s => s.id = "mws_settings")).map SvcEntry.mws_fixed_fee).getD none := by
      simp only [unpackMwsSettings, hcur]
    have hunpct : (unpackMwsSettings row).mws_profit_percentage =
        ((current.find? (fun s => s.id = "mws_settings")).map SvcEntry.mws_profit_percentage).getD none := by
      simp only [unpackMwsSettings, hcur]
    constructor
    · rw [h1, hfind2, hunfee, hmws0]
      cases hfind : current.find? (fun s => s.id = "mws_settings") with
      | none => rfl
      | some e => rfl
    · rw [h2, hfind2, hunpct, hmws0]
      cases hfind : current.find? (fun s => s.id = "mws_settings") with
      | none => rfl
      | some e => rfl

/-- A stored row with one user service and a sentinel carrying the old
commission parameters `50` / `10`. -/
def exStoredRow : ClientRow :=
  { id := "c1", user_id := "u1", name := "Acme",
    services := RawServices.arr
      [some { id := "svc1", name := "Web" },
       some { id := "mws_settings", name := "_mws_settings",
              mws_fixed_fee := some 50, mws_profit_percentage := some 10 }],
    quote_webhook_url := none }

/-- An update carrying only the new commission parameters. -/
def exFeeUpdate : ClientUpdates :=
  { mws_fixed_fee := some 100, mws_profit_percentage := some 20 }

/-- Witness for C3: the round-trip clause applied to `exStoredRow` with
new parameters `100` / `20`. -/
theorem C3_commission_roundtrip_witness :
    (updateClient exStoredRow exFeeUpdate).mws_fixed_fee = some 100 ∧
    (updateClient exStoredRow exFeeUpdate).mws_profit_percentage = some 20 :=
  C3_commission_roundtrip.1 exStoredRow exFeeUpdate 100 20 rfl rfl
    (fun _ h => nomatch h)

/-! ## Claim C4 -/

/-- C4: no client returned by `unpackMwsSettings`, `getClients`,
`getClientByUserId` or `updateClient` has a service with id
`'mws_settings'` in its services list. -/
theorem C4_sentinel_never_exposed :
    (∀ (row : ClientRow), ∀ s ∈ (unpackMwsSettings row).services, s.id ≠ "mws_settings") ∧
    (∀ (resp : Except String (List ClientRow))
        (leadsOf : String → Option (List Lead)) (spendsOf : String → Option (List AdSpend))
        (rows : List Client),
      getClients resp leadsOf spendsOf = .ok rows →
      ∀ c ∈ rows, ∀ s ∈ c.services, s.id ≠ "mws_settings") ∧
    (∀ (resp : Except String (List ClientRow))
        (leads : Option (List Lead)) (spends : Option (List AdSpend)) (c : Client),
      getClientByUserId resp leads spends = some c →
      ∀ s ∈ c.services, s.id ≠ "mws_settings") ∧
    (∀ (row : ClientRow) (u : ClientUpdates),
      ∀ s ∈ (updateClient row u).services, s.id ≠ "mws_settings") := by
  refine ⟨unpack_services_ne_sentinel, ?_, ?_, ?_⟩
  · intro resp leadsOf spendsOf rows h c hc s hs
    cases resp with
    | error e => exact nomatch h
    | ok rs =>
      rw [getClients, Except.ok.injEq] at h
      subst h
      obtain ⟨row, _, rfl⟩ := List.mem_map.mp hc
      exact unpack_services_ne_sentinel row s hs
  · intro resp leads spends c h s hs
    cases resp with
    | error e => exact nomatch h
    | ok rs =>
      cases rs with
      | nil => exact nomatch h
      | cons r rest =>
        rw [getClientByUserId, Option.some_inj] at h
        subst h
        exact unpack_services_ne_sentinel r s hs
  · intro row u s hs
    exact unpack_services_ne_sentinel _ s hs

/-- Witness for C4: the `getClientByUserId` clause applied to a one-row
response whose stored services contain the sentinel; the returned visible
service keeps id `svc1`. -/
theorem C4_sentinel_never_exposed_witness :
    ({ id := "svc1", name := "Web" } : SvcEntry).id ≠ "mws_settings" :=
  C4_sentinel_never_exposed.2.2.1 (.ok [exStoredRow]) none none
    { unpackMwsSettings exStoredRow with leads := [], adSpends := [] } rfl
    { id := "svc1", name := "Web" }
    (by simp [unpackMwsSettings, exStoredRow, normServices])

/-! ## Claim C9 -/

/-- C9: `getClientByUserId` is total with an `Option` result — a backend
error yields `none`, an empty row set yields `none`, and with one or more
rows it builds its client from the first row only (extra rows are
ignored) and returns `some`. -/
theorem C9_getClientByUserId_total :
    (∀ (e : String) (leads : Option (List Lead)) (spends : Option (List AdSpend)),
      getClientByUserId (.error e) leads spends = none) ∧
    (∀ (leads : Option (List Lead)) (spends : Option (List AdSpend)),
      getClientByUserId (.ok []) leads spends = none) ∧
    (∀ (c : ClientRow) (rest : List ClientRow)
        (leads : Option (List Lead)) (spends : Option (List AdSpend)),
      getClientByUserId (.ok (c :: rest)) leads spends =
        getClientByUserId (.ok [c]) leads spends ∧
      (getClientByUserId (.ok (c :: rest)) leads spends).isSome = true) := by
  exact ⟨fun _ _ _ => rfl, fun _ _ => rfl, fun _ _ _ _ => ⟨rfl, rfl⟩⟩

/-! ## Claim C10 -/

/-- C10: `unpackMwsSettings` is total on malformed `services` data — a
string that fails to parse, a string that parses to a non-array, any
other non-array value, or SQL `NULL` all yield an empty visible services
list and unset commission fields, with no exception. -/
theorem C10_unpack_total_on_malformed :
    ∀ (id uid name : String) (url : Option String),
      (unpackMwsSettings ⟨id, uid, name, .strInvalid, url⟩ =
        ⟨id, uid, name, [], none, none, url, [], []⟩) ∧
      (unpackMwsSettings ⟨id, uid, name, .strNonArray, url⟩ =
        ⟨id, uid, name, [], none, none, url, [], []⟩) ∧
      (unpackMwsSettings ⟨id, uid, name, .nonArray, url⟩ =
        ⟨id, uid, name, [], none, none, url, [], []⟩) ∧
      (unpackMwsSettings ⟨id, uid, name, .null, url⟩ =
        ⟨id, uid, name, [], none, none, url, [], []⟩) := by
  intro id uid name url
  exact ⟨rfl, rfl, rfl, rfl⟩

/-! ## Notifications (`ApiService`) -/

/-- A row of the `notifications` table.  `created_at` is in milliseconds
since the epoch (the code converts the stored ISO string with `new Date`);
`id` is the backend-assigned row id. -/
structure NotifRow where
  id : Nat
  user_id : String
  title : Option String
  message : String
  created_at : Nat
  lead_id : Option String
  read : Bool
  deriving Repr, DecidableEq

/-- JS template-literal interpolation of a nullable string
(`null` prints as `"null"`; the listing query excludes null titles, so the
`none` case is unreachable there). -/
def jsOptStr : Option String → String
  | some s => s
  | none => "null"

/-- The grouping key of `getSentNotifications`: the *string*
`` `${title}|${message}|${timeKey}` `` with
`` timeKey = `${year}-${month}-${date}-${hours}-${minutes}` `` from the UTC
clock.  The time segment is represented here by the decimal minute index
`created_at / 60000`: like the source's segment it contains no `'|'` and
is an injective function of the clock minute, and for any such segment two
keys are equal iff their minute segments agree (the segment after the last
`'|'`) and their `title|message` prefixes agree — so key equality,
including the collisions of `'|'`-containing titles/messages, is exactly
the source's. -/
def batchKey (n : NotifRow) : String :=
  jsOptStr n.title ++ "|" ++ n.message ++ "|" ++ toString (n.created_at / 60000)

/-- The query filter of `getSentNotifications`:
`.is('lead_id', null).not('title', 'is', null)`. -/
def sentPred (n : NotifRow) : Bool := n.lead_id.isNone && n.title.isSome

/-- `.order('created_at', { ascending: false })`. -/
def notifGE (a b : NotifRow) : Prop := b.created_at ≤ a.created_at

instance : DecidableRel notifGE := fun a b => Nat.decLe b.created_at a.created_at

def sortByCreatedDesc (l : List NotifRow) : List NotifRow := l.insertionSort notifGE

/-- The `grouped` Map loop of `getSentNotifications`: walk the rows,
keeping the first row seen for each key (`if (!grouped.has(groupKey))
grouped.set(groupKey, notification)`), in insertion order. -/
def dedupGo (seen : List String) : List NotifRow → List NotifRow
  | [] => []
  | n :: rest =>
    if batchKey n ∈ seen then dedupGo seen rest
    else n :: dedupGo (batchKey n :: seen) rest

def dedupByBatchKey (l : List NotifRow) : List NotifRow := dedupGo [] l

/-- `ApiService.getSentNotifications` (src/unnamed/part_000, lines
635–661): select the batch-eligible rows newest first, then collapse to
one representative per `(title, message, minute)` key. -/
def getSentNotifications (rows : List NotifRow) : List NotifRow :=
  dedupByBatchKey (sortByCreatedDesc (rows.filter sentPred))

/-- The row predicate shared by `updateSentNotification` and
`deleteSentNotification`: `lead_id` null, equal title and message, and
`created_at` within the original's clock minute
(`setUTCSeconds(0,0)` … `setUTCSeconds(59,999)`, inclusive bounds). -/
def batchMatches (orig n : NotifRow) : Bool :=
  let startTime := orig.created_at - orig.created_at % 60000
  n.lead_id.isNone &&
  (match orig.title with
   | some t => decide (n.title = some t)
   | none => false) &&
  decide (n.message = orig.message) &&
  decide (startTime ≤ n.created_at) &&
  decide (n.created_at ≤ startTime + 59999)

/-- `ApiService.deleteSentNotification` (lines 720–741), acting on the
notifications table. -/
def deleteSentNotification (orig : NotifRow) (rows : List NotifRow) : List NotifRow :=
  rows.filter (fun n => !(batchMatches orig n))

/-- `[...new Set(...)]`: first-occurrence deduplication. -/
def dedupStrGo (seen : List String) : List String → List String
  | [] => []
  | x :: rest => if x ∈ seen then dedupStrGo seen rest else x :: dedupStrGo (x :: seen) rest

/-- The insert of `updateSentNotification`: one fresh row per recipient
with the new trimmed title/message (`base` models the backend's fresh row
ids, `now` the insertion timestamp). -/
def mkNotifInserts (base : Nat) (t m : String) (now : Nat) : List String → List NotifRow
  | [] => []
  | uid :: rest =>
    { id := base, user_id := uid, title := some t, message := m,
      created_at := now, lead_id := none, read := false } ::
      mkNotifInserts (base + 1) t m now rest

/-- `ApiService.updateSentNotification` (lines 663–718): fetch the batch
(no-op when empty), delete it, and re-insert the new content for the
distinct recipients. -/
def updateSentNotification (orig : NotifRow) (newTitle newMessage : String)
    (now base : Nat) (rows : List NotifRow) : List NotifRow :=
  let originalBatch := rows.filter (batchMatches orig)
  if originalBatch.isEmpty then rows
  else
    (rows.filter (fun n => !(batchMatches orig n))) ++
      mkNotifInserts base newTitle.trim newMessage.trim now
        (dedupStrGo [] (originalBatch.map NotifRow.user_id))

theorem mem_of_mem_dedupGo {n : NotifRow} :
    ∀ (seen : List String) (l : List NotifRow),
      n ∈ dedupGo seen l → n ∈ l := by
  intro seen l
  induction l generalizing seen with
  | nil => intro h; exact absurd h (List.not_mem_nil n)
  | cons x xs ih =>
    intro h
    rw [dedupGo] at h
    split at h
    · exact List.mem_cons_of_mem _ (ih _ h)
    · rcases List.mem_cons.mp h with h1 | h2
      · exact h1 ▸ List.mem_cons_self _ _
      · exact List.mem_cons_of_mem _ (ih _ h2)

theorem key_mem_dedupGo_iff (k : String) :
    ∀ (seen : List String) (l : List NotifRow),
      k ∈ (dedupGo seen l).map batchKey ↔ (k ∈ l.map batchKey ∧ k ∉ seen) := by
  intro seen l
  induction l generalizing seen with
  | nil => simp [dedupGo]
  | cons x xs ih =>
    rw [dedupGo]
    split
    · rename_i hin
      rw [ih]
      simp only [List.map_cons, List.mem_cons]
      constructor
      · exact fun ⟨h1, h2⟩ => ⟨Or.inr h1, h2⟩
      · rintro ⟨h1 | h1, h2⟩
        · exact absurd (h1 ▸ hin) h2
        · exact ⟨h1, h2⟩
    · rename_i hnotin
      simp only [List.map_cons, List.mem_cons, ih, List.mem_cons, not_or]
      constructor
      · rintro (rfl | ⟨h1, h2, h3⟩)
        · exact ⟨Or.inl rfl, hnotin⟩
        · exact ⟨Or.inr h1, h3⟩
      · rintro ⟨h1 | h1, h2⟩
        · exact Or.inl h1
        · by_cases hk : k = batchKey x
          · exact Or.inl hk
          · exact Or.inr ⟨h1, hk, h2⟩

theorem nodup_keys_dedupGo :
    ∀ (seen : List String) (l : List NotifRow),
      ((dedupGo seen l).map batchKey).Nodup := by
  intro seen l
  induction l generalizing seen with
  | nil => simp [dedupGo]
  | cons x xs ih =>
    rw [dedupGo]
    split
    · exact ih _
    · simp only [List.map_cons, List.nodup_cons]
      refine ⟨?_, ih _⟩
      intro hmem
      have := (key_mem_dedupGo_iff _ _ _).mp hmem
      exact this.2 (List.mem_cons_self _ _)

theorem mkNotifInserts_id_ge {n : NotifRow} :
    ∀ (base : Nat) (t m : String) (now : Nat) (uids : List String),
      n ∈ mkNotifInserts base t m now uids → base ≤ n.id := by
  intro base t m now uids
  induction uids generalizing base with
  | nil => intro h; exact absurd h (List.not_mem_nil n)
  | cons u us ih =>
    intro h
    rcases List.mem_cons.mp h with h1 | h2
    · subst h1; exact Nat.le_refl _
    · exact Nat.le_of_succ_le (ih (base + 1) h2)

theorem string_data_inj {a b : String} (h : a.data = b.data) : a = b := by
  cases a; cases b; exact congrArg String.mk h

/-- Splitting at a separator absent from both prefixes is unambiguous. -/
theorem append_sep_inj {α : Type} (c : α) :
    ∀ (a1 a2 rest1 rest2 : List α), c ∉ a1 → c ∉ a2 →
      (a1 ++ c :: rest1 = a2 ++ c :: rest2 ↔ (a1 = a2 ∧ rest1 = rest2)) := by
  intro a1
  induction a1 with
  | nil =>
    intro a2 rest1 rest2 h1 h2
    cases a2 with
    | nil => simp
    | cons y ys =>
      simp only [List.nil_append, List.cons_append, List.cons.injEq]
      constructor
      · rintro ⟨rfl, -⟩
        exact absurd (List.mem_cons_self _ _) h2
      · rintro ⟨h, -⟩
        exact absurd h (by simp)
  | cons x xs ih =>
    intro a2 rest1 rest2 h1 h2
    cases a2 with
    | nil =>
      simp only [List.cons_append, List.nil_append, List.cons.injEq]
      constructor
      · rintro ⟨rfl, -⟩
        exact absurd (List.mem_cons_self _ _) h1
      · rintro ⟨h, -⟩
        exact absurd h (by simp)
    | cons y ys =>
      simp only [List.cons_append, List.cons.injEq]
      rw [ih ys rest1 rest2 (fun hc => h1 (List.mem_cons_of_mem _ hc))
        (fun hc => h2 (List.mem_cons_of_mem _ hc))]
      constructor
      · rintro ⟨hxy, hys, hr⟩
        exact ⟨⟨hxy, hys⟩, hr⟩
      · rintro ⟨⟨hxy, hys⟩, hr⟩
        exact ⟨hxy, hys, hr⟩

/-- For same-minute rows whose titles and messages are free of the `'|'`
separator, the string key collides exactly on equal title and message. -/
theorem batchKey_eq_iff_pipe_free (m n : NotifRow) (t1 t2 : String)
    (hm : m.title = some t1) (hn : n.title = some t2)
    (ht1 : '|' ∉ t1.data) (ht2 : '|' ∉ t2.data)
    (hmsg1 : '|' ∉ m.message.data) (hmsg2 : '|' ∉ n.message.data)
    (hmin : m.created_at / 60000 = n.created_at / 60000) :
    (batchKey m = batchKey n ↔ (m.title = n.title ∧ m.message = n.message)) := by
  simp only [batchKey, hm, hn, jsOptStr, hmin]
  constructor
  · intro h
    have hd := congrArg String.data h
    have hpipe : ("|" : String).data = ['|'] := rfl
    simp only [String.data_append, hpipe, List.append_assoc,
      List.singleton_append] at hd
    obtain ⟨hta, hrest⟩ := (append_sep_inj '|' _ _ _ _ ht1 ht2).mp hd
    obtain ⟨hma, -⟩ := (append_sep_inj '|' _ _ _ _ hmsg1 hmsg2).mp hrest
    exact ⟨congrArg some (string_data_inj hta), string_data_inj hma⟩
  · rintro ⟨hteq, hmeq⟩
    rw [Option.some_inj.mp hteq, hmeq]

/-! ## Claim C5 -/

/-- Two same-minute rows whose `(title, message)` pairs differ but whose
`'|'`-concatenations coincide: `"A|B" + "|" + "C"` and `"A" + "|" + "B|C"`. -/
def exNP1 : NotifRow :=
  { id := 4, user_id := "dave", title := some "A|B", message := "C",
    created_at := 120500, lead_id := none, read := false }

def exNP2 : NotifRow :=
  { id := 5, user_id := "erin", title := some "A", message := "B|C",
    created_at := 120900, lead_id := none, read := false }

/-- C5 counterexample: the listing does not return one representative per
`(title, message, minute)` group.  `exNP1` (title `"A|B"`, message `"C"`)
and `exNP2` (title `"A"`, message `"B|C"`) are eligible rows of the same
clock minute in *different* `(title, message, minute)` groups, yet the
`'|'`-concatenated string key merges them and `getSentNotifications`
returns a single representative for both. -/
theorem C5_pipe_collision_counterexample :
    (exNP1.title, exNP1.message) ≠ (exNP2.title, exNP2.message) ∧
    exNP1.created_at / 60000 = exNP2.created_at / 60000 ∧
    sentPred exNP1 = true ∧ sentPred exNP2 = true ∧
    getSentNotifications [exNP1, exNP2] = [exNP2] := by decide

/-- Two notifications sent within clock minute `2` with identical
title/message, and a third with the same text in minute `3`. -/
def exN1 : NotifRow :=
  { id := 1, user_id := "alice", title := some "T", message := "M",
    created_at := 120500, lead_id := none, read := false }

def exN2 : NotifRow :=
  { id := 2, user_id := "bob", title := some "T", message := "M",
    created_at := 120900, lead_id := none, read := false }

def exN3 : NotifRow :=
  { id := 3, user_id := "carol", title := some "T", message := "M",
    created_at := 185000, lead_id := none, read := false }

/-- C5 (amended): listed notification batches are identified by the
concatenated *string* key `title + '|' + message + '|' + minute`, not by
the `(title, message, minute)` triple itself: `getSentNotifications`
returns rows of its input (eligible ones only) with pairwise-distinct
string keys, covering every eligible row's string key, and for rows of one
clock minute whose titles and messages contain no `'|'` the string key
collides exactly on equal title and message (distinct triples whose
concatenations coincide — see the counterexample — are merged).
`batchMatches` — the row predicate of `updateSentNotification` /
`deleteSentNotification`, which compare the columns exactly and are
unaffected by the `'|'` ambiguity — holds exactly on the rows with
`lead_id` null whose title, message and creation minute equal the given
notification's; delete removes exactly the matching rows; update keeps
every non-matching row and removes every matching one.  Concretely, two
same-minute notifications with identical text collapse to one
representative, and deleting via that group leaves the same-text row of
the following minute untouched. -/
theorem C5_notification_batch_key :
    (∀ (rows : List NotifRow) (n : NotifRow),
      n ∈ getSentNotifications rows → n ∈ rows ∧ sentPred n = true) ∧
    (∀ (rows : List NotifRow), ((getSentNotifications rows).map batchKey).Nodup) ∧
    (∀ (rows : List NotifRow) (n : NotifRow),
      n ∈ rows → sentPred n = true →
      batchKey n ∈ (getSentNotifications rows).map batchKey) ∧
    (∀ (m n : NotifRow) (t1 t2 : String),
      m.title = some t1 → n.title = some t2 →
      '|' ∉ t1.data → '|' ∉ t2.data →
      '|' ∉ m.message.data → '|' ∉ n.message.data →
      m.created_at / 60000 = n.created_at / 60000 →
      (batchKey m = batchKey n ↔ (m.title = n.title ∧ m.message = n.message))) ∧
    (∀ (orig n : NotifRow) (t0 : String), orig.title = some t0 →
      (batchMatches orig n = true ↔
        (n.lead_id = none ∧ n.title = orig.title ∧ n.message = orig.message ∧
          n.created_at / 60000 = orig.created_at / 60000))) ∧
    (∀ (orig : NotifRow) (rows : List NotifRow) (n : NotifRow),
      n ∈ deleteSentNotification orig rows ↔ (n ∈ rows ∧ batchMatches orig n = false)) ∧
    (∀ (orig : NotifRow) (newTitle newMessage : String) (now base : Nat)
        (rows : List NotifRow) (n : NotifRow), n ∈ rows →
      (batchMatches orig n = false →
        n ∈ updateSentNotification orig newTitle newMessage now base rows) ∧
      (batchMatches orig n = true → (∀ m ∈ rows, m.id < base) →
        n ∉ updateSentNotification orig newTitle newMessage now base rows)) ∧
    (getSentNotifications [exN1, exN2, exN3] = [exN3, exN2] ∧
      batchMatches exN1 exN2 = true ∧ batchMatches exN1 exN3 = false ∧
      deleteSentNotification exN1 [exN1, exN2, exN3] = [exN3]) := by
  refine ⟨?_, ?_, ?_, batchKey_eq_iff_pipe_free, ?_, ?_, ?_, by decide⟩
  · intro rows n h
    simp only [getSentNotifications, dedupByBatchKey] at h
    have h1 := mem_of_mem_dedupGo [] _ h
    have h2 : n ∈ rows.filter sentPred :=
      (List.perm_insertionSort notifGE (rows.filter sentPred)).mem_iff.mp h1
    exact ⟨(List.mem_filter.mp h2).1, (List.mem_filter.mp h2).2⟩
  · intro rows
    simp only [getSentNotifications, dedupByBatchKey]
    exact nodup_keys_dedupGo [] _
  · intro rows n hn hp
    simp only [getSentNotifications, dedupByBatchKey]
    have h1 : batchKey n ∈ (rows.filter sentPred).map batchKey :=
      List.mem_map_of_mem _ (List.mem_filter.mpr ⟨hn, hp⟩)
    have h2 : batchKey n ∈ (sortByCreatedDesc (rows.filter sentPred)).map batchKey :=
      ((List.perm_insertionSort notifGE (rows.filter sentPred)).map batchKey).mem_iff.mpr h1
    exact (key_mem_dedupGo_iff _ [] _).mpr ⟨h2, by simp⟩
  · intro orig n t0 ht
    simp only [batchMatches, ht, Bool.and_eq_true, decide_eq_true_eq,
      Option.isNone_iff_eq_none]
    constructor
    · rintro ⟨⟨⟨⟨h1, h2⟩, h3⟩, h4⟩, h5⟩
      exact ⟨h1, h2, h3, by omega⟩
    · rintro ⟨h1, h2, h3, h4⟩
      refine ⟨⟨⟨⟨h1, h2⟩, h3⟩, ?_⟩, ?_⟩ <;> omega
  · intro orig rows n
    simp only [deleteSentNotification, List.mem_filter, Bool.not_eq_true']
  · intro orig nt nm now base rows n hn
    constructor
    · intro hmatch
      simp only [updateSentNotification]
      split
      · exact hn
      · refine List.mem_append_left _ (List.mem_filter.mpr ⟨hn, ?_⟩)
        rw [hmatch]
        rfl
    · intro hmatch hid
      simp only [updateSentNotification]
      split
      · rename_i hemp
        rw [List.isEmpty_iff] at hemp
        intro _
        exact (List.not_mem_nil n) (hemp ▸ List.mem_filter.mpr ⟨hn, hmatch⟩)
      · intro hcontra
        rcases List.mem_append.mp hcontra with h1 | h2
        · have hneg := (List.mem_filter.mp h1).2
          rw [hmatch] at hneg
          exact absurd hneg (by decide)
        · have hge := mkNotifInserts_id_ge _ _ _ _ _ h2
          have hlt := hid n hn
          omega

/-- Witness for C5: the string-key characterisation and the
`batchMatches` characterisation applied to `exN1`/`exN2`, and the
update-exactness clause applied to `exN3` against `exN1`'s batch. -/
theorem C5_notification_batch_key_witness :
    (batchKey exN1 = batchKey exN2 ↔
      (exN1.title = exN2.title ∧ exN1.message = exN2.message)) ∧
    (batchMatches exN1 exN2 = true ↔
      (exN2.lead_id = none ∧ exN2.title = exN1.title ∧ exN2.message = exN1.message ∧
        exN2.created_at / 60000 = exN1.created_at / 60000)) ∧
    ((batchMatches exN1 exN3 = false →
        exN3 ∈ updateSentNotification exN1 "T2" "M2" 200000 10 [exN1, exN2, exN3]) ∧
      (batchMatches exN1 exN3 = true → (∀ m ∈ [exN1, exN2, exN3], m.id < 10) →
        exN3 ∉ updateSentNotification exN1 "T2" "M2" 200000 10 [exN1, exN2, exN3])) :=
  ⟨C5_notification_batch_key.2.2.2.1 exN1 exN2 "T" "T" rfl rfl
     (by decide) (by decide) (by decide) (by decide) (by decide),
   C5_notification_batch_key.2.2.2.2.1 exN1 exN2 "T" rfl,
   C5_notification_batch_key.2.2.2.2.2.2.1 exN1 "T2" "M2" 200000 10
     [exN1, exN2, exN3] exN3 (by decide)⟩

/-! ## Quote webhook (`ApiService.sendQuoteByWebhook`) -/

/-- The `items` column of a `quotes` row: an array, a keyed object (as
some backends return it), or null.  Item contents are opaque here. -/
inductive ItemsVal where
  | nullv
  | arr (items : List String)
  | obj (keyed : List (String × String))
  deriving Repr, DecidableEq

/-- The raw `quotes` row fetched by `sendQuoteByWebhook`. -/
structure QuoteRow where
  id : String
  lead_id : String
  client_id : String
  status : String
  items : ItemsVal
  deriving Repr, DecidableEq

/-- The JSON body POSTed to the client's webhook URL. -/
structure WebhookPayload where
  event : String
  quote : QuoteRow
  quoteItems : ItemsVal
  lead_data : List (String × String)
  deriving Repr, DecidableEq

/-- The external world of one `sendQuoteByWebhook` call: the fetched quote
row (`none` = not found / fetch error), the associated lead's `data`
(`none` = `getLeadById` returned null), the client's configured webhook
URL (`none` = fetch error, missing client or missing URL), the HTTP
response to the POST, and whether the subsequent `updateQuoteStatus`
call succeeds. -/
structure WebhookEnv where
  rawQuote : Option QuoteRow
  leadData : Option (List (String × String))
  quote_webhook_url : Option String
  respStatus : Nat
  respBody : String
  updateOk : Bool
  updateErrMsg : String
  deriving Repr, DecidableEq

/-- What one call did: the raised-or-ok outcome, the payload POSTed (if
the call reached the POST), and the status value written through
`updateQuoteStatus` (if that update was issued). -/
structure WebhookOutcome where
  result : Except String Unit
  posted : Option WebhookPayload
  statusWritten : Option String
  deriving Repr

/-- `response.ok`: HTTP status in the inclusive range 200–299. -/
def respOk (status : Nat) : Bool := decide (200 ≤ status) && decide (status ≤ 299)

/-- `ApiService.sendQuoteByWebhook` (src/unnamed/part_000, lines 833–887):
fetch quote, lead and webhook URL (each failure raises its Italian error
message), transform a keyed `items` object to an array, POST the payload;
a non-2xx response raises an error embedding the status code and body; on
2xx, advance the status to `'sent'` through `updateQuoteStatus` unless the
quote is already `'accepted'`. -/
def sendQuoteByWebhook (env : WebhookEnv) : WebhookOutcome :=
  match env.rawQuote with
  | none => ⟨.error "Impossibile trovare il preventivo.", none, none⟩
  | some rawQuote =>
    match env.leadData with
    | none => ⟨.error "Impossibile trovare il lead associato al preventivo.", none, none⟩
    | some leadData =>
      match env.quote_webhook_url with
      | none => ⟨.error "URL webhook non configurato per questo cliente.", none, none⟩
      | some _url =>
        let itemsForPayload := match rawQuote.items with
          | .obj keyed => ItemsVal.arr (keyed.map Prod.snd)
          | other => other
        let payload : WebhookPayload :=
          ⟨"quote_sent_by_email", rawQuote, itemsForPayload, leadData⟩
        if respOk env.respStatus = false then
          ⟨.error ("Il server webhook ha risposto con un errore: " ++
              toString env.respStatus ++ " - " ++ env.respBody),
            some payload, none⟩
        else if rawQuote.status ≠ "accepted" then
          ⟨(if env.updateOk then .ok () else
              .error ("Failed to update quote status: " ++ env.updateErrMsg)),
            some payload, some "sent"⟩
        else ⟨.ok (), some payload, none⟩

/-! ## Claim C6 -/

/-- C6: when the webhook POST gets a non-2xx response, the call raises an
error whose message embeds the status code and response body, and no
status update is issued (the quote's status is unchanged from before the
call); a status update is issued only with value `'sent'`, only after a
2xx response, and only when the quote is not already `'accepted'`. -/
theorem C6_webhook_failure_leaves_status :
    (∀ (env : WebhookEnv) (q : QuoteRow) (d : List (String × String)) (u : String),
      env.rawQuote = some q → env.leadData = some d → env.quote_webhook_url = some u →
      respOk env.respStatus = false →
      (sendQuoteByWebhook env).result =
        .error ("Il server webhook ha risposto con un errore: " ++
          toString env.respStatus ++ " - " ++ env.respBody) ∧
      (sendQuoteByWebhook env).statusWritten = none) ∧
    (∀ (env : WebhookEnv) (s : String),
      (sendQuoteByWebhook env).statusWritten = some s →
      s = "sent" ∧ respOk env.respStatus = true ∧
      ∃ q, env.rawQuote = some q ∧ q.status ≠ "accepted") := by
  constructor
  · intro env q d u hq hd hu hresp
    simp only [sendQuoteByWebhook, hq, hd, hu, hresp, if_pos rfl]
    exact ⟨rfl, rfl⟩
  · intro env s h
    obtain ⟨rq, ld, url, st, body, uok, uerr⟩ := env
    cases rq with
    | none => exact nomatch h
    | some q =>
      cases ld with
      | none => exact nomatch h
      | some d =>
        cases url with
        | none => exact nomatch h
        | some u =>
          simp only [sendQuoteByWebhook] at h
          by_cases hresp : respOk st = false
          · rw [if_pos hresp] at h
            exact nomatch h
          · rw [if_neg hresp] at h
            by_cases hacc : q.status ≠ "accepted"
            · rw [if_pos hacc] at h
              refine ⟨(Option.some_inj.mp h).symm, ?_, q, rfl, hacc⟩
              cases hx : respOk st with
              | true => rfl
              | false => exact absurd hx hresp
            · rw [if_neg hacc] at h
              exact nomatch h

/-- Witness for C6: a 500 response with body `"boom"` on a draft quote
with lead and URL present. -/
theorem C6_webhook_failure_leaves_status_witness :
    (sendQuoteByWebhook
        { rawQuote := some ⟨"q1", "l1", "c1", "draft", ItemsVal.nullv⟩,
          leadData := some [("nome", "Mario")],
          quote_webhook_url := some "https://hook.example",
          respStatus := 500, respBody := "boom",
          updateOk := true, updateErrMsg := "" }).result =
      .error ("Il server webhook ha risposto con un errore: " ++
        toString (500 : Nat) ++ " - " ++ "boom") ∧
    (sendQuoteByWebhook
        { rawQuote := some ⟨"q1", "l1", "c1", "draft", ItemsVal.nullv⟩,
          leadData := some [("nome", "Mario")],
          quote_webhook_url := some "https://hook.example",
          respStatus := 500, respBody := "boom",
          updateOk := true, updateErrMsg := "" }).statusWritten = none :=
  C6_webhook_failure_leaves_status.1
    { rawQuote := some ⟨"q1", "l1", "c1", "draft", ItemsVal.nullv⟩,
      leadData := some [("nome", "Mario")],
      quote_webhook_url := some "https://hook.example",
      respStatus := 500, respBody := "boom",
      updateOk := true, updateErrMsg := "" }
    ⟨"q1", "l1", "c1", "draft", ItemsVal.nullv⟩ [("nome", "Mario")]
    "https://hook.example" rfl rfl rfl (by decide)

/-! ## Lead creation (`ApiService.addLead`) -/

/-- The `leads` row returned by the insert. -/
structure LeadRow where
  id : String
  client_id : String
  data : List (String × String)
  service : Option String
  status : String
  value : Option ℚ
  created_at : Option Int
  deriving Repr, DecidableEq

/-- The options object of `addLead`. -/
structure AddLeadOptions where
  clientId : String
  leadData : List (String × String)
  service : Option String := none
  status : Option String := none
  value : Option ℚ := none
  createdAt : Option Int := none
  deriving Repr, DecidableEq

/-- The `leadToInsert` object built by `addLead`: defaults status to
`'Nuovo'` and includes `created_at` only when given. -/
structure LeadInsert where
  client_id : String
  data : List (String × String)
  service : Option String
  status : String
  value : Option ℚ
  created_at : Option Int
  deriving Repr, DecidableEq

def leadToInsert (o : AddLeadOptions) : LeadInsert :=
  { client_id := o.clientId, data := o.leadData, service := o.service,
    status := o.status.getD "Nuovo", value := o.value, created_at := o.createdAt }

/-- A row of the fan-out notifications insert. -/
structure NotifInsert where
  user_id : String
  title : String
  message : String
  lead_id : Option String
  client_id : Option String
  deriving Repr, DecidableEq

/-- The external world of one `addLead` call: the backend's response to
the lead insert, the owning client's `(user_id, name)` (`none` = fetch
failed or no row), the admin profile ids (`none` = fetch failed), and
whether the notifications insert succeeds. -/
structure AddLeadEnv where
  insertResult : Except String LeadRow
  clientInfo : Option (String × String)
  adminIds : Option (List String)
  notifInsertOk : Bool
  deriving Repr

/-- `leadData.nome || 'N/D'` (an absent or empty name is falsy). -/
def leadNome (leadData : List (String × String)) : String :=
  match leadData.lookup "nome" with
  | some s => if s = "" then "N/D" else s
  | none => "N/D"

/-- The notification rows `addLead` builds: one for the client's user,
then one per admin. -/
def addLeadNotifications (opts : AddLeadOptions) (newLead : LeadRow)
    (clientUserId clientName : String) (admins : List String) : List NotifInsert :=
  { user_id := clientUserId,
    title := "Nuovo Lead Ricevuto!",
    message := "Hai ricevuto un nuovo lead: '" ++ leadNome opts.leadData ++
      "'. Clicca per vedere i dettagli.",
    lead_id := some newLead.id, client_id := some opts.clientId } ::
  admins.map (fun adminId =>
    { user_id := adminId,
      title := "Nuovo Lead per " ++ clientName,
      message := "È stato registrato un nuovo lead '" ++ leadNome opts.leadData ++
        "' per il cliente '" ++ clientName ++ "'.",
      lead_id := some newLead.id, client_id := some opts.clientId })

/-- `ApiService.addLead` (src/unnamed/part_000, lines 260–309): insert the
lead (failure throws); then, inside a try/catch whose errors are only
logged, fetch client and admins and insert the fan-out notification rows
(skipped when the client row or the admin list is missing or empty, and
inserting nothing when the insert itself fails).  Returns the new lead and
the notification rows that were actually inserted. -/
def addLead (env : AddLeadEnv) (opts : AddLeadOptions) :
    Except String LeadRow × List NotifInsert :=
  match env.insertResult with
  | .error e => (.error e, [])
  | .ok newLead =>
    let inserted :=
      match env.clientInfo, env.adminIds with
      | some (clientUserId, clientName), some admins =>
        if admins.isEmpty then []
        else if env.notifInsertOk then
          addLeadNotifications opts newLead clientUserId clientName admins
        else []
      | _, _ => []
    (.ok newLead, inserted)

/-! ## Claim C7 -/

/-- C7: `addLead`'s success is decoupled from notification delivery — once
the lead insert succeeds, `addLead` returns the new lead whatever happens
in the notification step (its result depends only on the insert's
outcome), and when the secondary step does run successfully it inserts one
row for the owning client's user and one for every admin. -/
theorem C7_addLead_notification_decoupled :
    (∀ (env : AddLeadEnv) (opts : AddLeadOptions) (l : LeadRow),
      env.insertResult = .ok l → (addLead env opts).1 = .ok l) ∧
    (∀ (env1 env2 : AddLeadEnv) (opts : AddLeadOptions),
      env1.insertResult = env2.insertResult →
      (addLead env1 opts).1 = (addLead env2 opts).1) ∧
    (∀ (env : AddLeadEnv) (opts : AddLeadOptions) (l : LeadRow)
        (clientUserId clientName : String) (admins : List String),
      env.insertResult = .ok l → env.clientInfo = some (clientUserId, clientName) →
      env.adminIds = some admins → admins ≠ [] → env.notifInsertOk = true →
      (addLead env opts).2 = addLeadNotifications opts l clientUserId clientName admins) := by
  refine ⟨?_, ?_, ?_⟩
  · intro env opts l h
    simp only [addLead, h]
  · intro env1 env2 opts h
    simp only [addLead, ← h]
    cases env1.insertResult <;> rfl
  · intro env opts l clientUserId clientName admins hres hc ha hne hok
    simp only [addLead, hres, hc, ha, hok, if_true]
    rw [if_neg]
    simpa using hne

/-- Witness for C7: a successful insert whose notification step fails
(`notifInsertOk = false`) still returns the new lead. -/
theorem C7_addLead_notification_decoupled_witness :
    (addLead
        { insertResult := .ok ⟨"l1", "c1", [("nome", "Mario")], none, "Nuovo", none, none⟩,
          clientInfo := some ("u1", "Acme"), adminIds := some ["a1"],
          notifInsertOk := false }
        { clientId := "c1", leadData := [("nome", "Mario")] }).1 =
      .ok ⟨"l1", "c1", [("nome", "Mario")], none, "Nuovo", none, none⟩ :=
  C7_addLead_notification_decoupled.1
    { insertResult := .ok ⟨"l1", "c1", [("nome", "Mario")], none, "Nuovo", none, none⟩,
      clientInfo := some ("u1", "Acme"), adminIds := some ["a1"],
      notifInsertOk := false }
    { clientId := "c1", leadData := [("nome", "Mario")] }
    ⟨"l1", "c1", [("nome", "Mario")], none, "Nuovo", none, none⟩ rfl

/-! ## Witness for C8 -/

/-- `[0,5]` and `[6,10]` partition `[0,10]`. -/
theorem window_partition_0_10 :
    isPartitionOfWindow ⟨some 0, some 10⟩ ⟨some 0, some 5⟩ ⟨some 6, some 10⟩ := by
  constructor
  · intro t
    simp only [inWindow, ← Bool.decide_and, ← Bool.decide_or, decide_eq_decide]
    omega
  · intro t
    simp only [inWindow, Bool.and_eq_true, decide_eq_true_eq, not_and]
    omega

/-- Witness for C8: order-independence applied to `exClientC1` with the
identity permutations, and window-sum additivity applied to `exClientC8`
over the partition of `[0,10]` into `[0,5]` and `[6,10]`. -/
theorem C8_order_independence_and_additivity_witness :
    (revenueData exClientC1 ⟨some 0, some 10⟩ =
      revenueData
        { exClientC1 with leads := exClientC1.leads, adSpends := exClientC1.adSpends }
        ⟨some 0, some 10⟩) ∧
    ((revenueData exClientC8 ⟨some 0, some 5⟩).clientProfit +
        (revenueData exClientC8 ⟨some 6, some 10⟩).clientProfit =
      (revenueData exClientC8 ⟨some 0, some 10⟩).clientProfit) :=
  ⟨C8_order_independence_and_additivity.1 exClientC1 ⟨some 0, some 10⟩
      exClientC1.leads exClientC1.adSpends (List.Perm.refl _) (List.Perm.refl _),
   (C8_order_independence_and_additivity.2 exClientC8 ⟨some 0, some 10⟩
      ⟨some 0, some 5⟩ ⟨some 6, some 10⟩ window_partition_0_10).2.2.1⟩

end MwsLead
